import Mathlib

/-!
Part: Verification of `gc_multi_game_aggregator.py`

A shallow embedding of the core pipeline of the GameChanger box-score
aggregator: grid extraction (`grid_to_lines_and_total`), section
classification (`parse_player_grids`), per-game metadata resolution
(`scrape_one_game`), cross-game aggregation (`aggregate`) and the
module-level LINEUP split post-processing step.

Python dictionaries are modelled as association lists with "last
assignment wins" lookup (`dlookup`); `pandas.DataFrame`s built from lists
of row dictionaries are modelled as lists of such records.  Browser I/O
(Selenium navigation, waits, the login check) is external to the core and
is represented by the already-rendered `Page` value handed to
`scrape_one_game`.
-/

namespace GC

/-- A row record / Python dict: association list of (key, value), where a
later entry for the same key overrides an earlier one (`dlookup`). -/
abbrev Record := List (String × String)

/-- Python dict lookup on an association list: the value of the *last*
entry with the given key, mirroring `d[k] = v` overwriting semantics. -/
def dlookup : Record → String → Option String
  | [], _ => none
  | (k', v) :: rest, k =>
    match dlookup rest k with
    | some w => some w
    | none => if k' == k then some v else none

/-- `d[k] = v` on a dict: append the assignment (last one wins). -/
def setField (r : Record) (k v : String) : Record := r ++ [(k, v)]

/-- Remove a key from a record (models a dropped column / NaN cell). -/
def eraseField (r : Record) (k : String) : Record :=
  r.filter (fun kv => kv.1 != k)

@[simp] theorem dlookup_nil (k : String) : dlookup [] k = none := rfl

theorem dlookup_setField_same (r : Record) (k v : String) :
    dlookup (setField r k v) k = some v := by
  induction r with
  | nil => simp [setField, dlookup]
  | cons a rest ih =>
    simp only [setField] at ih ⊢
    simp [dlookup, ih]

theorem dlookup_setField_ne (r : Record) (k' v k : String) (h : (k' == k) = false) :
    dlookup (setField r k' v) k = dlookup r k := by
  induction r with
  | nil => simp [setField, dlookup, h]
  | cons a rest ih =>
    simp only [setField] at ih ⊢
    simp [dlookup, ih]

theorem dlookup_eraseField_same (r : Record) (k : String) :
    dlookup (eraseField r k) k = none := by
  induction r with
  | nil => simp [eraseField]
  | cons a rest ih =>
    simp only [eraseField, List.filter_cons] at ih ⊢
    by_cases h : a.1 = k
    · simp [h, ih]
    · simp [h, dlookup, ih]

/-!
Part: 2. ag-Grid → record-table utilities (`grid_to_lines_and_total`)

A grid root is modelled by what the two CSS selectors return on it:
the header cells `div.ag-header-cell[col-id]` as (col-id, stripped text)
pairs, and each row `div[role="row"][row-index]` as the list of its
`div[col-id]` cells, in DOM order.
-/

/-- One `div[col-id]` cell of a data row: its `col-id` attribute and
stripped text. -/
structure Cell where
  colId : String
  text : String

/-- One `div.ag-root` grid subtree, as seen through the selectors used by
`grid_to_lines_and_total`. -/
structure GridRoot where
  /-- `(col-id, stripped text)` of each `div.ag-header-cell[col-id]`. -/
  headerCells : List (String × String)
  /-- each `div[role="row"][row-index]`, as its `div[col-id]` cells. -/
  rows : List (List Cell)

/-- `rec = {headers.get(c["col-id"], c["col-id"]): c.get_text(strip=True) ...}` -/
def recOf (headers : List (String × String)) (row : List Cell) : Record :=
  row.map (fun c => ((dlookup headers c.colId).getD c.colId, c.text))

/-- `headers.get("player", "player")` -/
def playerLabel (headers : List (String × String)) : String :=
  (dlookup headers "player").getD "player"

/-- `rec.get(headers.get("player", "player")) == "TEAM"` -/
def isTeamRec (headers : List (String × String)) (r : Record) : Bool :=
  dlookup r (playerLabel headers) == some "TEAM"

/-- One iteration of the row loop of `grid_to_lines_and_total`. -/
def gridStep (headers : List (String × String))
    (acc : List Record × Option Record) (row : List Cell) :
    List Record × Option Record :=
  let rcd := recOf headers row
  if rcd.isEmpty then acc
  else if isTeamRec headers rcd then (acc.1, some rcd)
  else (acc.1 ++ [rcd], acc.2)

/-- `grid_to_lines_and_total(root)`: the player-line records (in row
order) and the optional TEAM total record.  `pd.DataFrame(lines)` /
`pd.DataFrame([total]) if total else pd.DataFrame()` are represented by
the record list and the `Option Record` respectively. -/
def grid_to_lines_and_total (root : GridRoot) : List Record × Option Record :=
  root.rows.foldl (gridStep root.headerCells) ([], none)

/-- Rows kept as player lines: nonempty record, player field ≠ "TEAM". -/
def keepRow (headers : List (String × String)) (row : List Cell) : Bool :=
  !(recOf headers row).isEmpty && !(isTeamRec headers (recOf headers row))

/-- Rows recognised as the TEAM total row. -/
def teamRow (headers : List (String × String)) (row : List Cell) : Bool :=
  !(recOf headers row).isEmpty && isTeamRec headers (recOf headers row)

/-- The records produced as player lines. -/
def linesOf (headers : List (String × String)) (rows : List (List Cell)) :
    List Record :=
  (rows.filter (keepRow headers)).map (recOf headers)

/-- The running `total` variable of the row loop: the record of the last
TEAM row if any, else the previous value. -/
def lastTeam (headers : List (String × String)) :
    List (List Cell) → Option Record → Option Record
  | [], dflt => dflt
  | row :: rest, dflt =>
    if teamRow headers row then lastTeam headers rest (some (recOf headers row))
    else lastTeam headers rest dflt

theorem grid_foldl_spec (headers : List (String × String))
    (rows : List (List Cell)) :
    ∀ acc : List Record × Option Record,
      rows.foldl (gridStep headers) acc =
        (acc.1 ++ linesOf headers rows, lastTeam headers rows acc.2) := by
  induction rows with
  | nil => intro acc; simp [linesOf, lastTeam]
  | cons row rest ih =>
    intro acc
    by_cases hemp : (recOf headers row).isEmpty = true
    · have hkeep : keepRow headers row = false := by simp [keepRow, hemp]
      have hteam : teamRow headers row = false := by simp [teamRow, hemp]
      have hstep : gridStep headers acc row = acc := by simp [gridStep, hemp]
      simp [List.foldl_cons, hstep, ih, linesOf, List.filter_cons, hkeep,
        lastTeam, hteam]
    · simp only [Bool.not_eq_true] at hemp
      by_cases hT : isTeamRec headers (recOf headers row) = true
      · have hkeep : keepRow headers row = false := by simp [keepRow, hT]
        have hteam : teamRow headers row = true := by simp [teamRow, hemp, hT]
        have hstep : gridStep headers acc row = (acc.1, some (recOf headers row)) := by
          simp [gridStep, hemp, hT]
        simp [List.foldl_cons, hstep, ih, linesOf, List.filter_cons, hkeep,
          lastTeam, hteam]
      · simp only [Bool.not_eq_true] at hT
        have hkeep : keepRow headers row = true := by simp [keepRow, hemp, hT]
        have hteam : teamRow headers row = false := by simp [teamRow, hT]
        have hstep : gridStep headers acc row = (acc.1 ++ [recOf headers row], acc.2) := by
          simp [gridStep, hemp, hT]
        simp [List.foldl_cons, hstep, ih, linesOf, List.filter_cons, hkeep,
          lastTeam, hteam]

theorem grid_to_lines_and_total_eq (root : GridRoot) :
    grid_to_lines_and_total root =
      (linesOf root.headerCells root.rows,
       lastTeam root.headerCells root.rows none) := by
  simpa [grid_to_lines_and_total] using
    grid_foldl_spec root.headerCells root.rows ([], none)

theorem lastTeam_spec (headers : List (String × String))
    (rows : List (List Cell)) :
    ∀ dflt : Option Record,
      lastTeam headers rows dflt =
        match ((rows.filter (teamRow headers)).getLast?).map (recOf headers) with
        | some t => some t
        | none => dflt := by
  induction rows with
  | nil => intro dflt; simp [lastTeam]
  | cons row rest ih =>
    intro dflt
    by_cases hT : teamRow headers row = true
    · rw [show lastTeam headers (row :: rest) dflt
            = lastTeam headers rest (some (recOf headers row)) by
          simp [lastTeam, hT]]
      rw [ih]
      have hf : (row :: rest).filter (teamRow headers)
          = row :: rest.filter (teamRow headers) := by
        simp [List.filter_cons, hT]
      rw [hf]
      cases hlast : (rest.filter (teamRow headers)).getLast? with
      | none =>
        have : rest.filter (teamRow headers) = [] := by
          simpa [List.getLast?_isSome, Option.isSome_iff_ne_none] using
            congrArg Option.isSome hlast
        simp [this]
      | some t =>
        have hne : rest.filter (teamRow headers) ≠ [] := by
          intro hnil; rw [hnil] at hlast; simp at hlast
        obtain ⟨b, l, hbl⟩ := List.exists_cons_of_ne_nil hne
        rw [hbl, List.getLast?_cons_cons, ← hbl, hlast]
        simp
    · rw [show lastTeam headers (row :: rest) dflt
            = lastTeam headers rest dflt by simp [lastTeam, hT]]
      rw [ih]
      have hf : (row :: rest).filter (teamRow headers)
          = rest.filter (teamRow headers) := by
        simp [List.filter_cons, hT]
      rw [hf]

theorem filter_length_split {α : Type} (p : α → Bool) (l : List α) :
    (l.filter p).length + (l.filter (fun a => !(p a))).length = l.length := by
  induction l with
  | nil => rfl
  | cons a l ih =>
    by_cases h : p a = true <;> simp [List.filter_cons, h, ← ih] <;> omega

/-- The data rows of a grid that yield at least one field
(`if not rec: continue` skips the others). -/
def fieldRows (root : GridRoot) : List (List Cell) :=
  root.rows.filter (fun row => !(recOf root.headerCells row).isEmpty)

/-- Number of field-yielding rows whose player-resolved field is "TEAM". -/
def teamRowCount (root : GridRoot) : Nat :=
  ((fieldRows root).filter
    (fun row => isTeamRec root.headerCells (recOf root.headerCells row))).length

theorem fieldRows_filter_team (root : GridRoot) :
    (fieldRows root).filter
        (fun row => isTeamRec root.headerCells (recOf root.headerCells row))
      = root.rows.filter (teamRow root.headerCells) := by
  rw [fieldRows, List.filter_filter]
  refine List.filter_congr ?_
  intro row _
  simp [teamRow, Bool.and_comm]

theorem fieldRows_filter_keep (root : GridRoot) :
    (fieldRows root).filter
        (fun row => !(isTeamRec root.headerCells (recOf root.headerCells row)))
      = root.rows.filter (keepRow root.headerCells) := by
  rw [fieldRows, List.filter_filter]
  refine List.filter_congr ?_
  intro row _
  simp [keepRow, Bool.and_comm]

/-- Claim C1: For every grid subtree with N data rows each yielding at least
one field, `grid_to_lines_and_total` returns exactly N row records and no
total record when no row's player-resolved field equals "TEAM", and
exactly N−1 row records plus a separate total record when exactly one
row's player-resolved field equals "TEAM"; rows yielding no fields are
skipped (N here is the number of field-yielding rows, `fieldRows`). -/
theorem grid_extractor_row_counts (root : GridRoot) :
    (teamRowCount root = 0 →
      (grid_to_lines_and_total root).1.length = (fieldRows root).length ∧
      (grid_to_lines_and_total root).2 = none) ∧
    (teamRowCount root = 1 →
      (grid_to_lines_and_total root).1.length + 1 = (fieldRows root).length ∧
      ((grid_to_lines_and_total root).2).isSome = true) := by
  have heq := grid_to_lines_and_total_eq root
  have hlines : (grid_to_lines_and_total root).1.length
      = ((fieldRows root).filter
          (fun row => !(isTeamRec root.headerCells (recOf root.headerCells row)))).length := by
    rw [heq, fieldRows_filter_keep]
    simp [linesOf]
  have hsplit := filter_length_split
    (fun row => isTeamRec root.headerCells (recOf root.headerCells row))
    (fieldRows root)
  have htot : (grid_to_lines_and_total root).2
      = ((root.rows.filter (teamRow root.headerCells)).getLast?).map
          (recOf root.headerCells) := by
    rw [heq]
    simp only
    rw [lastTeam_spec]
    cases ((root.rows.filter (teamRow root.headerCells)).getLast?).map
        (recOf root.headerCells) <;> simp
  constructor
  · intro h0
    have hnil : root.rows.filter (teamRow root.headerCells) = [] := by
      rw [← fieldRows_filter_team]
      exact List.length_eq_zero.mp (by rw [← teamRowCount]; exact h0)
    refine ⟨?_, ?_⟩
    · rw [hlines]
      have := hsplit
      rw [show ((fieldRows root).filter
          (fun row => isTeamRec root.headerCells (recOf root.headerCells row))).length
          = teamRowCount root from rfl, h0] at this
      omega
    · rw [htot, hnil]; rfl
  · intro h1
    refine ⟨?_, ?_⟩
    · rw [hlines]
      have := hsplit
      rw [show ((fieldRows root).filter
          (fun row => isTeamRec root.headerCells (recOf root.headerCells row))).length
          = teamRowCount root from rfl, h1] at this
      omega
    · rw [htot]
      have hne : root.rows.filter (teamRow root.headerCells) ≠ [] := by
        rw [← fieldRows_filter_team]
        intro hnil
        have : teamRowCount root = 0 := by
          rw [teamRowCount, hnil]; rfl
        omega
      have := List.getLast?_isSome.mpr hne
      cases hx : (root.rows.filter (teamRow root.headerCells)).getLast? with
      | none => rw [hx] at this; simp at this
      | some t => simp

/-- Concrete grids: a batting-style grid with two field-yielding data
rows and no TEAM row. -/
def gridNoTeam : GridRoot :=
  { headerCells := [("player", "player"), ("AB", "AB"), ("R", "R"), ("H", "H")],
    rows := [[⟨"player", "Alice"⟩, ⟨"AB", "3"⟩, ⟨"R", "1"⟩, ⟨"H", "2"⟩],
             [⟨"player", "Bob"⟩, ⟨"AB", "4"⟩, ⟨"R", "0"⟩, ⟨"H", "1"⟩]] }

/-- A grid with one data row and one TEAM total row. -/
def gridOneTeam : GridRoot :=
  { headerCells := [("player", "player"), ("AB", "AB"), ("R", "R"), ("H", "H")],
    rows := [[⟨"player", "Alice"⟩, ⟨"AB", "3"⟩, ⟨"R", "1"⟩, ⟨"H", "2"⟩],
             [⟨"player", "TEAM"⟩, ⟨"AB", "3"⟩, ⟨"R", "1"⟩, ⟨"H", "2"⟩]] }

theorem grid_extractor_row_counts_witness :
    ((grid_to_lines_and_total gridNoTeam).1.length = (fieldRows gridNoTeam).length ∧
      (grid_to_lines_and_total gridNoTeam).2 = none) ∧
    ((grid_to_lines_and_total gridOneTeam).1.length + 1 = (fieldRows gridOneTeam).length ∧
      ((grid_to_lines_and_total gridOneTeam).2).isSome = true) :=
  ⟨(grid_extractor_row_counts gridNoTeam).1 (by decide),
   (grid_extractor_row_counts gridOneTeam).2 (by decide)⟩

/-- A grid with one data row and two TEAM rows. -/
def gridTwoTeam : GridRoot :=
  { headerCells := [("player", "player"), ("AB", "AB"), ("R", "R"), ("H", "H")],
    rows := [[⟨"player", "Alice"⟩, ⟨"AB", "3"⟩, ⟨"R", "1"⟩, ⟨"H", "2"⟩],
             [⟨"player", "TEAM"⟩, ⟨"AB", "7"⟩, ⟨"R", "1"⟩, ⟨"H", "3"⟩],
             [⟨"player", "TEAM"⟩, ⟨"AB", "8"⟩, ⟨"R", "2"⟩, ⟨"H", "4"⟩]] }

/-- Claim C9: For every grid containing two or more rows whose
player-resolved field equals "TEAM", `grid_to_lines_and_total` returns
only the last such row as the total record, and every earlier TEAM row is
silently absent from both the returned row sequence (no returned line
record has player field "TEAM") and the total output. -/
theorem multiple_team_rows_last_wins (root : GridRoot)
    (_h : 2 ≤ teamRowCount root) :
    (grid_to_lines_and_total root).2 =
      ((root.rows.filter (teamRow root.headerCells)).getLast?).map
        (recOf root.headerCells) ∧
    ∀ r ∈ (grid_to_lines_and_total root).1,
      ¬ dlookup r (playerLabel root.headerCells) = some "TEAM" := by
  have heq := grid_to_lines_and_total_eq root
  constructor
  · rw [heq]
    simp only
    rw [lastTeam_spec]
    cases ((root.rows.filter (teamRow root.headerCells)).getLast?).map
        (recOf root.headerCells) <;> simp
  · intro r hr
    rw [heq] at hr
    simp only [linesOf, List.mem_map] at hr
    obtain ⟨row, hrow, hrec⟩ := hr
    have hk := List.of_mem_filter hrow
    rw [keepRow, Bool.and_eq_true] at hk
    have hteamfalse : isTeamRec root.headerCells (recOf root.headerCells row) = false := by
      simpa using hk.2
    rw [← hrec]
    intro hcontra
    rw [isTeamRec, hcontra] at hteamfalse
    simp at hteamfalse

theorem multiple_team_rows_last_wins_witness :
    (grid_to_lines_and_total gridTwoTeam).2 =
      ((gridTwoTeam.rows.filter (teamRow gridTwoTeam.headerCells)).getLast?).map
        (recOf gridTwoTeam.headerCells) ∧
    ∀ r ∈ (grid_to_lines_and_total gridTwoTeam).1,
      ¬ dlookup r (playerLabel gridTwoTeam.headerCells) = some "TEAM" :=
  multiple_team_rows_last_wins gridTwoTeam (by decide)

/-!
Part: Section classification and `parse_player_grids`
-/

/-- `set(lines.columns)`: the union of the field keys of the line
records (membership is what classification uses). -/
def colsOf (lines : List Record) : List String :=
  (lines.foldl (fun acc r => acc ++ r.map Prod.fst) []).dedup

/-- `{"AB", "R", "H"} <= cols` -/
def hasBattingSig (cols : List String) : Bool :=
  cols.contains "AB" && cols.contains "R" && cols.contains "H"

/-- `{"IP", "ER", "SO"} <= cols` -/
def hasPitchingSig (cols : List String) : Bool :=
  cols.contains "IP" && cols.contains "ER" && cols.contains "SO"

/-- Classification result of a grid's column-label set. -/
inductive Sec where
  | batting
  | pitching
  | unclassified
deriving DecidableEq

/-- The SectionClassifier: the `if {"AB","R","H"} <= cols ... elif
{"IP","ER","SO"} <= cols ... else` chain of `parse_player_grids`. -/
def classify (cols : List String) : Sec :=
  if hasBattingSig cols then Sec.batting
  else if hasPitchingSig cols then Sec.pitching
  else Sec.unclassified

/-- The four accumulator lists of `parse_player_grids`.  Each total
DataFrame `pd.DataFrame([total])` holds exactly one record, so the totals
lists are lists of records. -/
structure GridData where
  batting : List (List Record)
  pitching : List (List Record)
  batting_totals : List Record
  pitching_totals : List Record
deriving DecidableEq

/-- One iteration of the loop over `soup.select("div.ag-root")`. -/
def parseStep (d : GridData) (root : GridRoot) : GridData :=
  let lt := grid_to_lines_and_total root
  match classify (colsOf lt.1) with
  | Sec.batting =>
    { d with batting := d.batting ++ [lt.1],
             batting_totals := d.batting_totals ++ lt.2.toList }
  | Sec.pitching =>
    { d with pitching := d.pitching ++ [lt.1],
             pitching_totals := d.pitching_totals ++ lt.2.toList }
  | Sec.unclassified => d

/-- `parse_player_grids(html)`: the page markup is represented by the
list of its `div.ag-root` subtrees in DOM order. -/
def parse_player_grids (roots : List GridRoot) : GridData :=
  roots.foldl parseStep ⟨[], [], [], []⟩

/-- Claim C2: SectionClassifier is total and deterministic: every
column-label set maps to exactly one of batting (the set is a superset of
{AB, R, H}), pitching (a superset of {IP, ER, SO}), or unclassified; and
for any label set containing both signatures simultaneously, the
classification is batting. -/
theorem hasBattingSig_iff (cols : List String) :
    hasBattingSig cols = true ↔ ("AB" ∈ cols ∧ "R" ∈ cols ∧ "H" ∈ cols) := by
  simp [hasBattingSig, and_assoc]

theorem hasPitchingSig_iff (cols : List String) :
    hasPitchingSig cols = true ↔ ("IP" ∈ cols ∧ "ER" ∈ cols ∧ "SO" ∈ cols) := by
  simp [hasPitchingSig, and_assoc]

theorem section_classifier_total (cols : List String) :
    (classify cols = Sec.batting ∨ classify cols = Sec.pitching ∨
      classify cols = Sec.unclassified) ∧
    ("AB" ∈ cols → "R" ∈ cols → "H" ∈ cols → classify cols = Sec.batting) ∧
    (("IP" ∈ cols ∧ "ER" ∈ cols ∧ "SO" ∈ cols) →
      ¬("AB" ∈ cols ∧ "R" ∈ cols ∧ "H" ∈ cols) →
      classify cols = Sec.pitching) ∧
    (¬("AB" ∈ cols ∧ "R" ∈ cols ∧ "H" ∈ cols) →
      ¬("IP" ∈ cols ∧ "ER" ∈ cols ∧ "SO" ∈ cols) →
      classify cols = Sec.unclassified) := by
  refine ⟨?_, ?_, ?_, ?_⟩
  · by_cases hb : hasBattingSig cols = true
    · left; simp [classify, hb]
    · by_cases hp : hasPitchingSig cols = true
      · right; left; simp [classify, hb, hp]
      · right; right; simp [classify, hb, hp]
  · intro h1 h2 h3
    have hb : hasBattingSig cols = true := (hasBattingSig_iff cols).mpr ⟨h1, h2, h3⟩
    simp [classify, hb]
  · intro hp hnb
    have hb : hasBattingSig cols = false := by
      rw [← Bool.not_eq_true]
      intro ht
      exact hnb ((hasBattingSig_iff cols).mp ht)
    have hpt : hasPitchingSig cols = true := (hasPitchingSig_iff cols).mpr hp
    simp [classify, hb, hpt]
  · intro hnb hnp
    have hb : hasBattingSig cols = false := by
      rw [← Bool.not_eq_true]
      intro ht
      exact hnb ((hasBattingSig_iff cols).mp ht)
    have hp : hasPitchingSig cols = false := by
      rw [← Bool.not_eq_true]
      intro ht
      exact hnp ((hasPitchingSig_iff cols).mp ht)
    simp [classify, hb, hp]

theorem section_classifier_total_witness :
    classify ["AB", "R", "H", "IP", "ER", "SO"] = Sec.batting ∧
    classify ["IP", "ER", "SO", "W"] = Sec.pitching ∧
    classify ["GOALS"] = Sec.unclassified :=
  ⟨(section_classifier_total ["AB", "R", "H", "IP", "ER", "SO"]).2.1
      (by decide) (by decide) (by decide),
   (section_classifier_total ["IP", "ER", "SO", "W"]).2.2.1
      (by decide) (by decide),
   (section_classifier_total ["GOALS"]).2.2.2 (by decide) (by decide)⟩

/-- Claim C10: Classification of a grid is computed only from the columns
of its non-total rows: for a grid whose only field-yielding row is the
TEAM total row, the extracted row set is empty, the grid is classified as
neither batting nor pitching, and its contribution to every output list
of `parse_player_grids` is empty — even when the total row itself carries
a complete batting or pitching column signature. -/
theorem team_only_grid_discarded (root : GridRoot)
    (h : ∀ row ∈ root.rows,
      (recOf root.headerCells row).isEmpty = true ∨
      isTeamRec root.headerCells (recOf root.headerCells row) = true) :
    (grid_to_lines_and_total root).1 = [] ∧
    classify (colsOf (grid_to_lines_and_total root).1) = Sec.unclassified ∧
    ∀ pre post : List GridRoot,
      parse_player_grids (pre ++ root :: post) = parse_player_grids (pre ++ post) := by
  have hlines : (grid_to_lines_and_total root).1 = [] := by
    rw [grid_to_lines_and_total_eq]
    simp only [linesOf]
    have : root.rows.filter (keepRow root.headerCells) = [] := by
      rw [List.filter_eq_nil_iff]
      intro row hrow
      rcases h row hrow with hemp | hteam
      · simp [keepRow, hemp]
      · simp [keepRow, hteam]
    rw [this]; rfl
  have hcl : classify (colsOf (grid_to_lines_and_total root).1) = Sec.unclassified := by
    rw [hlines]; rfl
  refine ⟨hlines, hcl, ?_⟩
  intro pre post
  have hstep : ∀ d : GridData, parseStep d root = d := by
    intro d
    rw [parseStep]
    simp only [hlines] at hcl ⊢
    rw [hcl]
  rw [parse_player_grids, parse_player_grids, List.foldl_append,
    List.foldl_append, List.foldl_cons, hstep]

/-- A grid whose only row is a TEAM total row carrying a full batting
signature. -/
def gridTeamOnly : GridRoot :=
  { headerCells := [("player", "player"), ("AB", "AB"), ("R", "R"), ("H", "H")],
    rows := [[⟨"player", "TEAM"⟩, ⟨"AB", "7"⟩, ⟨"R", "1"⟩, ⟨"H", "3"⟩]] }

theorem team_only_grid_discarded_witness :
    (grid_to_lines_and_total gridTeamOnly).1 = [] ∧
    classify (colsOf (grid_to_lines_and_total gridTeamOnly).1) = Sec.unclassified ∧
    ∀ pre post : List GridRoot,
      parse_player_grids (pre ++ gridTeamOnly :: post) = parse_player_grids (pre ++ post) :=
  team_only_grid_discarded gridTeamOnly (by decide)

/-!
Part: Scraping one game (`scrape_one_game`)

The rendered page is modelled by what the selectors of
`scrape_one_game` return on it: the grid roots, the optional text of the
first `div[data-testid="event-time"]`, the optional texts of the
`away-team-name` / `home-team-name` test-attribute elements, and the
`(href, stripped text)` of every `header a` element in DOM order.
Navigation, the login-redirect check and the explicit wait are the
external browser collaborator and precede this model.
-/

/-- Is `pat` a prefix of `s` (character lists)? -/
def isPre : List Char → List Char → Bool
  | [], _ => true
  | _ :: _, [] => false
  | p :: ps, c :: cs => p == c && isPre ps cs

/-- Does `pat` occur as a substring of `s` (character lists)?  Models
Python's `pat in s` / the CSS `[href*=...]` attribute test. -/
def containsSub (pat : List Char) : List Char → Bool
  | [] => pat.isEmpty
  | c :: cs => isPre pat (c :: cs) || containsSub pat cs

/-- `"/teams/" in href`. -/
def hrefIsTeamLink (href : String) : Bool :=
  containsSub "/teams/".data href.data

/-- A rendered box-score page, as seen through the selectors of
`scrape_one_game`. -/
structure Page where
  /-- the `div.ag-root` grid subtrees in DOM order. -/
  roots : List GridRoot
  /-- stripped text of `div[data-testid="event-time"]`, if present. -/
  eventTime : Option String
  /-- stripped text of `[data-testid="away-team-name"]`, if present. -/
  awayTag : Option String
  /-- stripped text of `[data-testid="home-team-name"]`, if present. -/
  homeTag : Option String
  /-- `(href, stripped text)` of each `header a[href]` in DOM order. -/
  headerAnchors : List (String × String)

/-- `soup.select('header a[href*="/teams/"]')`. -/
def teamAnchors (p : Page) : List (String × String) :=
  p.headerAnchors.filter (fun a => hrefIsTeamLink a.1)

/-- The team-name resolution of `scrape_one_game`: dedicated test
attributes when both are present, else the first two team links padded
with "unknown". -/
def resolveTeamNames (p : Page) : String × String :=
  match p.awayTag, p.homeTag with
  | some a, some h => (a, h)
  | _, _ =>
    let names := ((teamAnchors p).take 2).map Prod.snd
    let padded := names ++ ["unknown", "unknown"]
    (padded.getD 0 "unknown", padded.getD 1 "unknown")

/-- `[0-9a-f]` under `re.I`. -/
def isHexChar (c : Char) : Bool :=
  ('0' ≤ c && c ≤ '9') || ('a' ≤ c && c ≤ 'f') || ('A' ≤ c && c ≤ 'F')

/-- Consume exactly `n` hex characters. -/
def hexRunChk : Nat → List Char → Option (List Char)
  | 0, cs => some cs
  | _ + 1, [] => none
  | n + 1, c :: cs => if isHexChar c then hexRunChk n cs else none

/-- Consume a literal dash. -/
def dashChk : List Char → Option (List Char)
  | '-' :: cs => some cs
  | _ => none

/-- Does `UUID_RE` (8-4-4-4-12 hex groups) match at the start of `cs`? -/
def uuidHere (cs : List Char) : Bool :=
  (((((((((hexRunChk 8 cs).bind dashChk).bind (hexRunChk 4)).bind dashChk).bind
    (hexRunChk 4)).bind dashChk).bind (hexRunChk 4)).bind dashChk).bind
    (hexRunChk 12)).isSome

/-- `UUID_RE.search`: the leftmost 36-character UUID-shaped substring. -/
def findUuidChars : List Char → Option (List Char)
  | [] => none
  | c :: cs =>
    if uuidHere (c :: cs) then some ((c :: cs).take 36) else findUuidChars cs

/-- `UUID_RE.search(url)` and `.group(1)`. -/
def findUuid (url : String) : Option String :=
  (findUuidChars url.data).map (fun cs => ⟨cs⟩)

/-- The error taxonomy of the spec.  `MissingElementError` covers the
`AttributeError` raised when `select_one` finds no event-time element;
`MissingIdentifierError` the `AttributeError` raised when
`UUID_RE.search(url)` returns `None`. -/
inductive ScrapeError where
  | AuthenticationError
  | MissingIdentifierError
  | MissingElementError
deriving DecidableEq

/-- The per-game payload returned by `scrape_one_game`:
`grids, date_str, game_id, (away_team, home_team)`. -/
structure GamePayload where
  grids : GridData
  dateStr : String
  gameId : String
  awayTeam : String
  homeTeam : String

/-- `scrape_one_game(url, driver)` on an already-rendered page, in the
source's evaluation order: event date, team names, game id, grids. -/
def scrape_one_game (url : String) (p : Page) : Except ScrapeError GamePayload :=
  match p.eventTime with
  | none => Except.error ScrapeError.MissingElementError
  | some date =>
    let names := resolveTeamNames p
    match findUuid url with
    | none => Except.error ScrapeError.MissingIdentifierError
    | some gid =>
      Except.ok ⟨parse_player_grids p.roots, date, gid, names.1, names.2⟩

/-!
Part: Aggregation across games (`aggregate`)
-/

/-- `df["team_name"] = team; df["home_away"] = ha` on one row. -/
def stampRow (r : Record) (team ha : String) : Record :=
  setField (setField r "team_name" team) "home_away" ha

/-- `df["section"] = sec; df["game_id"] = gid; df["game_date"] = date`
on one row. -/
def stampMetaRow (r : Record) (sec gid date : String) : Record :=
  setField (setField (setField r "section" sec) "game_id" gid) "game_date" date

/-- The positional team stamping of the player-line DataFrames:
`line_dfs[0]` gets the away team, `line_dfs[1]` (when present) the home
team; further DataFrames are left without team stamping. -/
def stampTeamLines (dfs : List (List Record)) (away home : String) :
    List (List Record) :=
  match dfs with
  | [] => []
  | d0 :: rest =>
    let d0' := d0.map (fun r => stampRow r away "away")
    match rest with
    | [] => [d0']
    | d1 :: rest2 => d0' :: d1.map (fun r => stampRow r home "home") :: rest2

/-- Team stamping followed by the `for df in line_dfs:` metadata loop. -/
def stampLines (dfs : List (List Record)) (away home sec gid date : String) :
    List (List Record) :=
  (stampTeamLines dfs away home).map
    (fun d => d.map (fun r => stampMetaRow r sec gid date))

/-- The positional team stamping of the one-row total DataFrames:
`tot_dfs[0]` away, `tot_dfs[1]` (when present) home. -/
def stampTeamTotals (tots : List Record) (away home : String) : List Record :=
  match tots with
  | [] => []
  | t0 :: rest =>
    let t0' := stampRow t0 away "away"
    match rest with
    | [] => [t0']
    | t1 :: rest2 => t0' :: stampRow t1 home "home" :: rest2

/-- Team stamping followed by the `for df in tot_dfs:` metadata loop. -/
def stampTotals (tots : List Record) (away home sec gid date : String) :
    List Record :=
  (stampTeamTotals tots away home).map (fun r => stampMetaRow r sec gid date)

/-- The four output tables after the final `pd.concat` calls.  A table is
the ordered list of its rows. -/
structure Tables where
  batting_lines : List Record
  pitching_lines : List Record
  batting_totals : List Record
  pitching_totals : List Record
deriving DecidableEq

def Tables.append (t u : Tables) : Tables :=
  ⟨t.batting_lines ++ u.batting_lines,
   t.pitching_lines ++ u.pitching_lines,
   t.batting_totals ++ u.batting_totals,
   t.pitching_totals ++ u.pitching_totals⟩

/-- The rows one game contributes to the four tables: both sections of
its grids stamped with team, home/away, section, game id and date. -/
def processGame (g : GamePayload) : Tables :=
  ⟨(stampLines g.grids.batting g.awayTeam g.homeTeam "batting"
      g.gameId g.dateStr).flatten,
   (stampLines g.grids.pitching g.awayTeam g.homeTeam "pitching"
      g.gameId g.dateStr).flatten,
   stampTotals g.grids.batting_totals g.awayTeam g.homeTeam "batting"
      g.gameId g.dateStr,
   stampTotals g.grids.pitching_totals g.awayTeam g.homeTeam "pitching"
      g.gameId g.dateStr⟩

/-- `aggregate(urls)`: scrape each page in order and concatenate the
stamped rows; any per-page failure aborts the whole run (the partially
built tables are discarded with the exception). -/
def aggregate : List (String × Page) → Except ScrapeError Tables
  | [] => Except.ok ⟨[], [], [], []⟩
  | (url, p) :: rest =>
    match scrape_one_game url p with
    | Except.error e => Except.error e
    | Except.ok g =>
      match aggregate rest with
      | Except.error e => Except.error e
      | Except.ok t => Except.ok (Tables.append (processGame g) t)

/-!
Part: Team-name resolution (C6) and missing identifier (C8)
-/

theorem pad_getD (l : List String) :
    ((l.take 2 ++ ["unknown", "unknown"]).getD 0 "unknown",
     (l.take 2 ++ ["unknown", "unknown"]).getD 1 "unknown")
    = (l.getD 0 "unknown", l.getD 1 "unknown") := by
  match l with
  | [] => rfl
  | [a] => rfl
  | a :: b :: rest => rfl

/-- Claim C6: For every page, team names come from the dedicated away/home
test-attribute elements when both are present; if either is missing, the
resolver falls back to the header anchors whose link target contains
"/teams/", in DOM order, position 0 as away and position 1 as home; if
fewer than two such anchors are found, each unresolved name is the
literal "unknown". -/
theorem team_name_resolution (p : Page) :
    (∀ a h, p.awayTag = some a → p.homeTag = some h →
      resolveTeamNames p = (a, h)) ∧
    ((p.awayTag = none ∨ p.homeTag = none) →
      resolveTeamNames p =
        (((teamAnchors p).map Prod.snd).getD 0 "unknown",
         ((teamAnchors p).map Prod.snd).getD 1 "unknown")) := by
  constructor
  · intro a h ha hh
    simp [resolveTeamNames, ha, hh]
  · intro hcase
    unfold resolveTeamNames
    split
    · rename_i a h ha hh
      exfalso
      rcases hcase with hA | hH
      · rw [hA] at ha; exact Option.noConfusion ha
      · rw [hH] at hh; exact Option.noConfusion hh
    · simp only [List.map_take]
      exact pad_getD ((teamAnchors p).map Prod.snd)

/-- A page whose dedicated away-team element is missing and whose header
holds exactly one team link. -/
def pageFallback : Page :=
  { roots := [],
    eventTime := some "Sat 5/3",
    awayTag := none,
    homeTag := some "Hawks",
    headerAnchors := [("https://web.gc.com/teams/abc", "Eagles"),
                      ("/standings", "Standings")] }

theorem team_name_resolution_witness :
    resolveTeamNames pageFallback = ("Eagles", "unknown") := by
  have h := (team_name_resolution pageFallback).2 (Or.inl rfl)
  rw [h]
  rfl

/-- Claim C8: For every URL that contains no canonical UUID-shaped
substring (and a page whose event-time element rendered, so that
processing reaches the identifier step), processing that page fails with
MissingIdentifierError, and no rows from that page are added to the
aggregated output: no batch containing the page aggregates successfully. -/
theorem missing_identifier_fatal (url : String) (p : Page) (d : String)
    (hdate : p.eventTime = some d) (hid : findUuid url = none) :
    scrape_one_game url p = Except.error ScrapeError.MissingIdentifierError ∧
    ∀ inputs : List (String × Page), (url, p) ∈ inputs →
      ∀ t : Tables, aggregate inputs ≠ Except.ok t := by
  have hscrape : scrape_one_game url p
      = Except.error ScrapeError.MissingIdentifierError := by
    rw [scrape_one_game, hdate]
    simp only [hid]
  refine ⟨hscrape, ?_⟩
  intro inputs
  induction inputs with
  | nil => intro hmem; cases hmem
  | cons ip rest ih =>
    obtain ⟨u, pg⟩ := ip
    intro hmem t hok
    rcases List.mem_cons.mp hmem with heq | hmem'
    · injection heq with h1 h2
      subst h1; subst h2
      rw [aggregate, hscrape] at hok
      exact Except.noConfusion hok
    · rw [aggregate] at hok
      cases hs : scrape_one_game u pg with
      | error e => rw [hs] at hok; exact Except.noConfusion hok
      | ok g =>
        rw [hs] at hok
        cases hr : aggregate rest with
        | error e => rw [hr] at hok; exact Except.noConfusion hok
        | ok t2 => exact ih hmem' t2 hr

/-- A URL with no UUID-shaped substring. -/
def badUrl : String := "https://web.gc.com/teams/12345/schedule"

theorem missing_identifier_fatal_witness :
    scrape_one_game badUrl pageFallback
        = Except.error ScrapeError.MissingIdentifierError ∧
    aggregate [(badUrl, pageFallback)] ≠ Except.ok ⟨[], [], [], []⟩ := by
  have h := missing_identifier_fatal badUrl pageFallback "Sat 5/3" rfl (by rfl)
  exact ⟨h.1, h.2 [(badUrl, pageFallback)] (List.Mem.head _) ⟨[], [], [], []⟩⟩

/-!
Part: Row conservation across aggregation (C3)
-/

/-- Total number of rows across all four output tables. -/
def Tables.totalRows (t : Tables) : Nat :=
  t.batting_lines.length + t.pitching_lines.length +
    t.batting_totals.length + t.pitching_totals.length

/-- Extracted non-total rows of one page's classified grids. -/
def gameLineRows (p : Page) : Nat :=
  ((parse_player_grids p.roots).batting.map List.length).sum +
    ((parse_player_grids p.roots).pitching.map List.length).sum

/-- Sum of extracted non-total rows per game over a batch. -/
def batchLineRows (inputs : List (String × Page)) : Nat :=
  (inputs.map (fun ip => gameLineRows ip.2)).sum

/-- A URL carrying a UUID and a one-game page: one batting grid with one
data row and one TEAM total row. -/
def cexUrl : String :=
  "https://web.gc.com/games/11111111-2222-3333-4444-555555555555/box-score"

def cexPage : Page :=
  { roots := [gridOneTeam],
    eventTime := some "2025-05-01",
    awayTag := some "Eagles",
    homeTag := some "Hawks",
    headerAnchors := [] }

/-- Claim C3, counterexample: On a batch whose single game has one batting
grid with one data row plus a TEAM total row, the output tables hold 2
rows (1 player line + 1 team total) while the sum of extracted non-total
rows is 1, so the row count across *all* output tables does not equal the
sum of extracted non-total rows. -/
theorem aggregate_conservation_counterexample :
    (aggregate [(cexUrl, cexPage)]).map Tables.totalRows = Except.ok 2 ∧
    batchLineRows [(cexUrl, cexPage)] = 1 ∧
    (aggregate [(cexUrl, cexPage)]).map Tables.totalRows ≠
      Except.ok (batchLineRows [(cexUrl, cexPage)]) := by
  have h1 : (aggregate [(cexUrl, cexPage)]).map Tables.totalRows = Except.ok 2 := by
    rfl
  have h2 : batchLineRows [(cexUrl, cexPage)] = 1 := by rfl
  refine ⟨h1, h2, ?_⟩
  intro hcontra
  rw [h1, h2] at hcontra
  injection hcontra with hn
  exact absurd hn (by decide)

theorem stampLines_flatten_length (dfs : List (List Record))
    (away home sec gid date : String) :
    ((stampLines dfs away home sec gid date).flatten).length
      = (dfs.map List.length).sum := by
  match dfs with
  | [] => rfl
  | [d0] => simp [stampLines, stampTeamLines]
  | d0 :: d1 :: rest =>
    simp [stampLines, stampTeamLines, List.length_flatten,
      Function.comp_def, List.map_map]

/-- Claim C3, amended: Conservation holds for the player-line tables: for
every batch that aggregates successfully, the number of rows across the
two player-line output tables equals the sum, per game, of the extracted
non-total rows across all of that game's classified (batting or
pitching) grids; unclassified grids contribute nothing and games
contributing zero rows do not affect other games.  (The totals tables
additionally hold one row per extracted total record.) -/
theorem aggregate_lines_conservation (inputs : List (String × Page))
    (t : Tables) (hok : aggregate inputs = Except.ok t) :
    t.batting_lines.length + t.pitching_lines.length = batchLineRows inputs := by
  induction inputs generalizing t with
  | nil =>
    rw [aggregate] at hok
    injection hok with h
    rw [← h]
    rfl
  | cons ip rest ih =>
    obtain ⟨u, pg⟩ := ip
    rw [aggregate] at hok
    cases hs : scrape_one_game u pg with
    | error e => rw [hs] at hok; exact Except.noConfusion hok
    | ok g =>
      rw [hs] at hok
      cases hr : aggregate rest with
      | error e => rw [hr] at hok; exact Except.noConfusion hok
      | ok t2 =>
        rw [hr] at hok
        injection hok with h
        have hgrids : g.grids = parse_player_grids pg.roots := by
          rw [scrape_one_game] at hs
          cases hd : pg.eventTime with
          | none => rw [hd] at hs; exact Except.noConfusion hs
          | some dd =>
            rw [hd] at hs
            cases hu : findUuid u with
            | none => simp only [hu] at hs; exact Except.noConfusion hs
            | some gid =>
              simp only [hu] at hs
              injection hs with hg
              rw [← hg]
        have hrest := ih t2 hr
        rw [← h]
        show (Tables.append (processGame g) t2).batting_lines.length +
            (Tables.append (processGame g) t2).pitching_lines.length
          = batchLineRows ((u, pg) :: rest)
    -- lengths of the appended tables
        have hbat : (processGame g).batting_lines.length
            = ((parse_player_grids pg.roots).batting.map List.length).sum := by
          rw [processGame]
          simp only
          rw [stampLines_flatten_length, hgrids]
        have hpit : (processGame g).pitching_lines.length
            = ((parse_player_grids pg.roots).pitching.map List.length).sum := by
          rw [processGame]
          simp only
          rw [stampLines_flatten_length, hgrids]
        have hbatch : batchLineRows ((u, pg) :: rest)
            = gameLineRows pg + batchLineRows rest := by
          rw [batchLineRows, List.map_cons, List.sum_cons]
          rfl
        rw [hbatch, Tables.append]
        simp only [List.length_append]
        rw [hbat, hpit, gameLineRows, ← hrest]
        omega

theorem aggregate_lines_conservation_witness :
    (aggregate [(cexUrl, cexPage)]).map
        (fun t => t.batting_lines.length + t.pitching_lines.length)
      = Except.ok (batchLineRows [(cexUrl, cexPage)]) := by
  have h0 : ∃ t, aggregate [(cexUrl, cexPage)] = Except.ok t := ⟨_, rfl⟩
  obtain ⟨t, ht⟩ := h0
  rw [ht, Except.map]
  exact congrArg Except.ok (aggregate_lines_conservation [(cexUrl, cexPage)] t ht)

/-!
Part: Positional home/away stamping (C4, C5)
-/

theorem dlookup_meta (r : Record) (sec gid date : String) :
    dlookup (stampMetaRow r sec gid date) "section" = some sec ∧
    dlookup (stampMetaRow r sec gid date) "game_id" = some gid ∧
    dlookup (stampMetaRow r sec gid date) "game_date" = some date := by
  unfold stampMetaRow
  refine ⟨?_, ?_, ?_⟩
  · rw [dlookup_setField_ne _ _ _ _ (by decide), dlookup_setField_ne _ _ _ _ (by decide),
      dlookup_setField_same]
  · rw [dlookup_setField_ne _ _ _ _ (by decide), dlookup_setField_same]
  · rw [dlookup_setField_same]

theorem dlookup_stamped (r : Record) (team ha sec gid date : String) :
    dlookup (stampMetaRow (stampRow r team ha) sec gid date) "team_name" = some team ∧
    dlookup (stampMetaRow (stampRow r team ha) sec gid date) "home_away" = some ha := by
  unfold stampMetaRow stampRow
  constructor
  · rw [dlookup_setField_ne _ _ _ _ (by decide), dlookup_setField_ne _ _ _ _ (by decide),
      dlookup_setField_ne _ _ _ _ (by decide), dlookup_setField_ne _ _ _ _ (by decide),
      dlookup_setField_same]
  · rw [dlookup_setField_ne _ _ _ _ (by decide), dlookup_setField_ne _ _ _ _ (by decide),
      dlookup_setField_ne _ _ _ _ (by decide), dlookup_setField_same]

/-- Claim C4: For every game payload and every classification, home/away
stamping of player-line rows is strictly positional: rows of the first
grid of that classification receive the away team name and
home_away = "away", rows of the second grid receive the home team name
and home_away = "home", regardless of actual team identity; if only one
grid of the classification exists, only the away stamping occurs. -/
theorem home_away_positional (d0 : List Record) (rest : List (List Record))
    (away home sec gid date : String) :
    (∀ r ∈ (stampLines (d0 :: rest) away home sec gid date).headD [],
      dlookup r "team_name" = some away ∧ dlookup r "home_away" = some "away") ∧
    (∀ d1 rest2, rest = d1 :: rest2 →
      ∀ r ∈ ((stampLines (d0 :: rest) away home sec gid date).drop 1).headD [],
        dlookup r "team_name" = some home ∧ dlookup r "home_away" = some "home") ∧
    (rest = [] →
      (stampLines (d0 :: rest) away home sec gid date).length = 1 ∧
      ∀ r ∈ (stampLines (d0 :: rest) away home sec gid date).flatten,
        dlookup r "home_away" = some "away") := by
  cases rest with
  | nil =>
    refine ⟨?_, ?_, ?_⟩
    · intro r hr
      simp only [stampLines, stampTeamLines, List.map_cons, List.map_nil,
        List.headD_cons] at hr
      rw [List.map_map] at hr
      obtain ⟨r0, _, hr0⟩ := List.mem_map.mp hr
      rw [← hr0]
      exact dlookup_stamped r0 away "away" sec gid date
    · intro d1 rest2 hcontra
      exact List.noConfusion hcontra
    · intro _
      constructor
      · rfl
      · intro r hr
        simp only [stampLines, stampTeamLines, List.map_cons, List.map_nil,
          List.flatten] at hr
        rw [List.map_map] at hr
        simp only [List.flatten_nil, List.append_nil] at hr
        obtain ⟨r0, _, hr0⟩ := List.mem_map.mp hr
        rw [← hr0]
        exact (dlookup_stamped r0 away "away" sec gid date).2
  | cons d1 rest2 =>
    refine ⟨?_, ?_, ?_⟩
    · intro r hr
      simp only [stampLines, stampTeamLines, List.map_cons,
        List.headD_cons] at hr
      rw [List.map_map] at hr
      obtain ⟨r0, _, hr0⟩ := List.mem_map.mp hr
      rw [← hr0]
      exact dlookup_stamped r0 away "away" sec gid date
    · intro d1' rest2' heq r hr
      simp only [stampLines, stampTeamLines, List.map_cons,
        List.drop_succ_cons, List.drop_zero, List.headD_cons] at hr
      rw [List.map_map] at hr
      obtain ⟨r0, _, hr0⟩ := List.mem_map.mp hr
      rw [← hr0]
      exact dlookup_stamped r0 home "home" sec gid date
    · intro hcontra
      exact List.noConfusion hcontra

/-- Demo one-row DataFrames for the stamping witnesses. -/
def demoDfA : List Record := [[("player", "A")]]

def demoDfB : List Record := [[("player", "B")]]

theorem home_away_positional_witness :
    (∀ r ∈ (stampLines [demoDfA] "Aways" "Homes" "batting" "gid1" "d1").headD [],
      dlookup r "team_name" = some "Aways" ∧ dlookup r "home_away" = some "away") ∧
    (∀ r ∈ ((stampLines [demoDfA, demoDfB] "Aways" "Homes" "batting" "gid1"
          "d1").drop 1).headD [],
      dlookup r "team_name" = some "Homes" ∧ dlookup r "home_away" = some "home") ∧
    (stampLines [demoDfA] "Aways" "Homes" "batting" "gid1" "d1").length = 1 :=
  ⟨(home_away_positional demoDfA [] "Aways" "Homes" "batting" "gid1" "d1").1,
   (home_away_positional demoDfA [demoDfB] "Aways" "Homes" "batting" "gid1"
      "d1").2.1 demoDfB [] rfl,
   ((home_away_positional demoDfA [] "Aways" "Homes" "batting" "gid1"
      "d1").2.2 rfl).1⟩

/-- A page with two batting grids in DOM order: the first (away) grid has
no TEAM total row, the second (home) grid has one. -/
def cex5Url : String :=
  "https://web.gc.com/games/aaaaaaaa-bbbb-cccc-dddd-eeeeffff0000/box-score"

def cex5Page : Page :=
  { roots := [gridNoTeam, gridOneTeam],
    eventTime := some "2025-05-02",
    awayTag := some "AwayTeam",
    homeTag := some "HomeTeam",
    headerAnchors := [] }

/-- Claim C5, counterexample: Totals are stamped by position in the
sequence of *extracted* totals, not by the position of their grid within
its classification group: with two batting grids where only the second
(home) grid has a TEAM row, the lone extracted total — which comes from
the second grid — is stamped with the away team name and
home_away = "away", not the home stamping that the grid's position would
dictate. -/
theorem totals_positional_counterexample :
    (parse_player_grids cex5Page.roots).batting.length = 2 ∧
    (grid_to_lines_and_total gridNoTeam).2 = none ∧
    ((grid_to_lines_and_total gridOneTeam).2).isSome = true ∧
    (aggregate [(cex5Url, cex5Page)]).map
        (fun t => t.batting_totals.map
          (fun r => (dlookup r "team_name", dlookup r "home_away")))
      = Except.ok [(some "AwayTeam", some "away")] :=
  ⟨rfl, rfl, rfl, rfl⟩

/-- Claim C5, amended: Each extracted total record is stamped with the team
name and home/away flag corresponding to its position within the sequence
of totals extracted for its classification (first extracted total = away,
second = home) — which coincides with grid position only when every grid
of the classification yields a total — and every total row is
additionally stamped with game identifier, date, and section. -/
theorem totals_stamped_by_extraction_order (t0 : Record) (rest : List Record)
    (away home sec gid date : String) :
    (∀ r, (stampTotals (t0 :: rest) away home sec gid date).head? = some r →
      dlookup r "team_name" = some away ∧ dlookup r "home_away" = some "away") ∧
    (∀ t1 rest2, rest = t1 :: rest2 →
      ∀ r, ((stampTotals (t0 :: rest) away home sec gid date).drop 1).head?
          = some r →
        dlookup r "team_name" = some home ∧ dlookup r "home_away" = some "home") ∧
    (∀ r ∈ stampTotals (t0 :: rest) away home sec gid date,
      dlookup r "section" = some sec ∧ dlookup r "game_id" = some gid ∧
      dlookup r "game_date" = some date) := by
  cases rest with
  | nil =>
    refine ⟨?_, ?_, ?_⟩
    · intro r hr
      simp only [stampTotals, stampTeamTotals, List.map_cons, List.map_nil,
        List.head?_cons, Option.some.injEq] at hr
      rw [← hr]
      exact dlookup_stamped t0 away "away" sec gid date
    · intro t1 rest2 hcontra
      exact List.noConfusion hcontra
    · intro r hr
      simp only [stampTotals, stampTeamTotals, List.map_cons, List.map_nil,
        List.mem_singleton] at hr
      rw [hr]
      exact dlookup_meta _ sec gid date
  | cons t1 rest2 =>
    refine ⟨?_, ?_, ?_⟩
    · intro r hr
      simp only [stampTotals, stampTeamTotals, List.map_cons,
        List.head?_cons, Option.some.injEq] at hr
      rw [← hr]
      exact dlookup_stamped t0 away "away" sec gid date
    · intro t1' rest2' _ r hr
      simp only [stampTotals, stampTeamTotals, List.map_cons,
        List.drop_succ_cons, List.drop_zero, List.head?_cons,
        Option.some.injEq] at hr
      rw [← hr]
      exact dlookup_stamped t1 home "home" sec gid date
    · intro r hr
      simp only [stampTotals] at hr
      obtain ⟨r0, _, hr0⟩ := List.mem_map.mp hr
      rw [← hr0]
      exact dlookup_meta r0 sec gid date

theorem totals_stamped_by_extraction_order_witness :
    (∀ r, (stampTotals [[("player", "TEAM")]] "Aways" "Homes" "pitching"
          "gid2" "d2").head? = some r →
      dlookup r "team_name" = some "Aways" ∧ dlookup r "home_away" = some "away") ∧
    (∀ r, ((stampTotals [[("player", "TEAM")], [("player", "TEAM"), ("IP", "6")]]
          "Aways" "Homes" "pitching" "gid2" "d2").drop 1).head? = some r →
      dlookup r "team_name" = some "Homes" ∧ dlookup r "home_away" = some "home") ∧
    (∀ r ∈ stampTotals [[("player", "TEAM")]] "Aways" "Homes" "pitching"
          "gid2" "d2",
      dlookup r "section" = some "pitching" ∧ dlookup r "game_id" = some "gid2" ∧
      dlookup r "game_date" = some "d2") :=
  ⟨(totals_stamped_by_extraction_order [("player", "TEAM")] [] "Aways" "Homes"
      "pitching" "gid2" "d2").1,
   (totals_stamped_by_extraction_order [("player", "TEAM")]
      [[("player", "TEAM"), ("IP", "6")]] "Aways" "Homes" "pitching" "gid2"
      "d2").2.1 [("player", "TEAM"), ("IP", "6")] [] rfl,
   (totals_stamped_by_extraction_order [("player", "TEAM")] [] "Aways" "Homes"
      "pitching" "gid2" "d2").2.2⟩

/-!
Part: The module-level LINEUP split (C7)
-/

/-- Python `str.strip()` / pandas `.str.strip()` on characters. -/
def stripChars (cs : List Char) : List Char :=
  ((cs.dropWhile Char.isWhitespace).reverse.dropWhile Char.isWhitespace).reverse

/-- Trim whitespace from both ends. -/
def strip (s : String) : String := ⟨stripChars s.data⟩

/-- The reference regex `^\s*([^()]+)\s*\(([^)]*)\)` applied at the start
of the string (the `^` anchor).  Group 1 is the maximal paren-free run
before the first parenthesis — minus the leading whitespace that the
greedy `\s*` keeps, it backtracks at most down to leaving one character
for the mandatory `[^()]+`; the first parenthesis of the string must be
`(` and a closing `)` must occur after it; group 2 is the text between
that `(` and the first following `)`. -/
def matchLineup (cs : List Char) : Option (List Char × List Char) :=
  let pre := cs.takeWhile (fun c => c != '(' && c != ')')
  match cs.dropWhile (fun c => c != '(' && c != ')') with
  | '(' :: tail =>
    if pre.isEmpty then none
    else
      let g2 := tail.takeWhile (fun c => c != ')')
      if (tail.dropWhile (fun c => c != ')')).isEmpty then none
      else
        let w := min (pre.takeWhile Char.isWhitespace).length (pre.length - 1)
        some (pre.drop w, g2)
  | _ => none

/-- One cell of
`bat_lines["LINEUP"].str.extract(r"^\s*([^()]+)\s*\(([^)]*)\)")`:
the two capture groups, or `none` for a NaN (non-matching) result. -/
def splitLineup (s : String) : Option (String × String) :=
  (matchLineup s.data).map (fun g => (⟨g.1⟩, ⟨g.2⟩))

/-- NaN-aware column assignment on one row: `some` sets the field, `none`
(NaN) unsets it. -/
def setOptField (r : Record) (k : String) (v : Option String) : Record :=
  match v with
  | some s => setField r k s
  | none => eraseField r k

/-- The module-level LINEUP block on one row of the batting-lines table:
assign `player` and `positions_played` from the stripped capture groups
(NaN where the pattern does not match), then drop the LINEUP column. -/
def lineupSplitRow (r : Record) : Record :=
  let split := (dlookup r "LINEUP").bind splitLineup
  let r1 := setOptField r "player" (split.map (fun g => strip g.1))
  let r2 := setOptField r1 "positions_played" (split.map (fun g => strip g.2))
  eraseField r2 "LINEUP"

/-- `if "LINEUP" in bat_lines.columns:` — the block runs only when the
aggregated batting-lines table exposes a LINEUP column. -/
def lineup_post (tbl : List Record) : List Record :=
  if (colsOf tbl).contains "LINEUP" then tbl.map lineupSplitRow else tbl

theorem dlookup_cons_miss (a : String × String) (rest : Record) (k : String)
    (h : (a.1 == k) = false) : dlookup (a :: rest) k = dlookup rest k := by
  obtain ⟨k', v⟩ := a
  cases hx : dlookup rest k <;> simp_all [dlookup]

theorem dlookup_cons_congr (a : String × String) {l₁ l₂ : Record} (k : String)
    (h : dlookup l₁ k = dlookup l₂ k) :
    dlookup (a :: l₁) k = dlookup (a :: l₂) k := by
  obtain ⟨k', v⟩ := a
  simp only [dlookup, h]

theorem dlookup_eraseField_ne (r : Record) (k' k : String)
    (h : (k' == k) = false) :
    dlookup (eraseField r k') k = dlookup r k := by
  induction r with
  | nil => rfl
  | cons a rest ih =>
    simp only [eraseField, List.filter_cons] at ih ⊢
    by_cases ha : a.1 = k'
    · have hmiss : (a.1 == k) = false := by rw [ha]; exact h
      simp only [ha, bne_self_eq_false, Bool.false_eq_true, if_false]
      rw [ih, dlookup_cons_miss a rest k hmiss]
    · have hp : (a.1 != k') = true := by simp [ha]
      rw [hp]
      simp only [if_true]
      exact dlookup_cons_congr a k ih

/-- Claim C7: When the aggregated batting-lines table exposes a LINEUP
field, every value matched by the reference pattern (leading text
followed by parenthesized positions) is split into a trimmed player-name
field and a trimmed positions field and the combined LINEUP field is
dropped; a value with no parentheses yields unset (NaN) values for both
derived fields with no error raised, and its original text is lost. -/
theorem lineup_split_behavior (tbl : List Record)
    (h : (colsOf tbl).contains "LINEUP" = true) :
    lineup_post tbl = tbl.map lineupSplitRow ∧
    ∀ r v, dlookup r "LINEUP" = some v →
      ((∀ n ps, splitLineup v = some (n, ps) →
        dlookup (lineupSplitRow r) "player" = some (strip n) ∧
        dlookup (lineupSplitRow r) "positions_played" = some (strip ps) ∧
        dlookup (lineupSplitRow r) "LINEUP" = none) ∧
      ((∀ c ∈ v.data, c ≠ '(' ∧ c ≠ ')') →
        dlookup (lineupSplitRow r) "player" = none ∧
        dlookup (lineupSplitRow r) "positions_played" = none ∧
        dlookup (lineupSplitRow r) "LINEUP" = none)) := by
  constructor
  · rw [lineup_post, if_pos h]
  · intro r v hv
    constructor
    · intro n ps hsp
      have hrow : lineupSplitRow r =
          eraseField
            (setField (setField r "player" (strip n))
              "positions_played" (strip ps)) "LINEUP" := by
        rw [lineupSplitRow, hv]
        simp only [Option.some_bind, hsp, Option.map_some', setOptField]
      rw [hrow]
      refine ⟨?_, ?_, ?_⟩
      · rw [dlookup_eraseField_ne _ _ _ (by decide),
          dlookup_setField_ne _ _ _ _ (by decide), dlookup_setField_same]
      · rw [dlookup_eraseField_ne _ _ _ (by decide), dlookup_setField_same]
      · rw [dlookup_eraseField_same]
    · intro hnp
      have hmatch : matchLineup v.data = none := by
        have hd : v.data.dropWhile (fun c => c != '(' && c != ')') = [] := by
          rw [List.dropWhile_eq_nil_iff]
          intro c hc
          obtain ⟨h1, h2⟩ := hnp c hc
          simp [h1, h2]
        rw [matchLineup, hd]
      have hsp : splitLineup v = none := by
        rw [splitLineup, hmatch]
        rfl
      have hrow : lineupSplitRow r =
          eraseField
            (eraseField (eraseField r "player") "positions_played") "LINEUP" := by
        rw [lineupSplitRow, hv]
        simp only [Option.some_bind, hsp, Option.map_none', setOptField]
      rw [hrow]
      refine ⟨?_, ?_, ?_⟩
      · rw [dlookup_eraseField_ne _ _ _ (by decide),
          dlookup_eraseField_ne _ _ _ (by decide), dlookup_eraseField_same]
      · rw [dlookup_eraseField_ne _ _ _ (by decide), dlookup_eraseField_same]
      · rw [dlookup_eraseField_same]

theorem lineup_split_behavior_witness :
    dlookup (lineupSplitRow [("LINEUP", "J. Smith (SS,2B)")]) "player"
        = some "J. Smith" ∧
    dlookup (lineupSplitRow [("LINEUP", "J. Smith (SS,2B)")]) "positions_played"
        = some "SS,2B" ∧
    dlookup (lineupSplitRow [("LINEUP", "J. Smith (SS,2B)")]) "LINEUP" = none ∧
    dlookup (lineupSplitRow [("LINEUP", "Mike Trout")]) "player" = none ∧
    dlookup (lineupSplitRow [("LINEUP", "Mike Trout")]) "positions_played"
        = none := by
  have hmatched := ((lineup_split_behavior [[("LINEUP", "J. Smith (SS,2B)")]]
      (by decide)).2 [("LINEUP", "J. Smith (SS,2B)")] "J. Smith (SS,2B)"
      (by decide)).1 "J. Smith " "SS,2B" (by decide)
  have hplain := ((lineup_split_behavior [[("LINEUP", "Mike Trout")]]
      (by decide)).2 [("LINEUP", "Mike Trout")] "Mike Trout"
      (by decide)).2 (by decide)
  exact ⟨hmatched.1.trans (by decide), hmatched.2.1.trans (by decide),
    hmatched.2.2, hplain.1, hplain.2.1⟩

end GC
